import Mathlib

/-!
Shallow embedding of the per-frame simulation core of the 2D space shooter
(`src/Game.tsx`).  Coordinates are rationals; each pass of the `animate`
frame body is translated into a pure function over explicit state.  The
mutable arrays (`bulletsRef`, `enemiesRef`, `enemyBulletsRef`, `explosions`)
become lists; the reverse-indexed `for` loops with `splice` become structural
recursions that process the tail (higher indices) before the head, mirroring
iteration from `length - 1` down to `0`.  The React state updaters
`setScore`, `setLives`, `setGameOver` become explicit record updates applied
in call order.
-/

namespace SpaceShooter

/-- Game constants from `Game.tsx`. -/
def PLAYER_WIDTH : ℚ := 0.5

def PLAYER_HEIGHT : ℚ := 1

def BULLET_WIDTH : ℚ := 0.3

def BULLET_HEIGHT : ℚ := 0.8

def BULLET_SPEED : ℚ := 0.2

def ENEMY_BULLET_WIDTH : ℚ := 0.25

def ENEMY_BULLET_HEIGHT : ℚ := 0.6

def ENEMY_BULLET_SPEED : ℚ := 0.08

def ENEMY_WIDTH : ℚ := 0.5

def ENEMY_HEIGHT : ℚ := 0.9

def ENEMY_SPEED : ℚ := 0.04

/-- Player movement speed per frame (`const speed = 0.15`). -/
def speed : ℚ := 0.15

/-- Orthographic camera vertical extent (`const viewHeight = 10`). -/
def viewHeight : ℚ := 10

/-- The frame loop decrements explosion timers by a fixed `1 / 60` each
frame (`explosions[i].timer -= 1 / 60`), the elapsed time of one tick of
the assumed stable 60 Hz frame driver. -/
def FRAME_DT : ℚ := 1 / 60

/-- A 2D position in world units. -/
structure Vec2 where
  x : ℚ
  y : ℚ
deriving DecidableEq

/-- An explosion effect marker: position plus remaining countdown
(`explosions: { mesh; timer }[]`). -/
structure Explosion where
  pos : Vec2
  timer : ℚ
deriving DecidableEq

/-- Held directional intents (`moveRef.current`). -/
structure MoveState where
  left : Bool
  right : Bool
  up : Bool
  down : Bool
deriving DecidableEq

/-- Horizontal bound for the player
(`const leftBound = -viewWidth / 2 + PLAYER_WIDTH / 2`); the view width
depends on the canvas aspect ratio, so it stays a parameter `vw`. -/
def leftBound (vw : ℚ) : ℚ := -vw / 2 + PLAYER_WIDTH / 2

/-- `const rightBound = viewWidth / 2 - PLAYER_WIDTH / 2`. -/
def rightBound (vw : ℚ) : ℚ := vw / 2 - PLAYER_WIDTH / 2

/-- `const topBound = viewHeight / 2 - PLAYER_HEIGHT / 2`. -/
def topBound : ℚ := viewHeight / 2 - PLAYER_HEIGHT / 2

/-- `const bottomBound = -viewHeight / 2 + PLAYER_HEIGHT / 2`. -/
def bottomBound : ℚ := -viewHeight / 2 + PLAYER_HEIGHT / 2

/-- Player movement pass of `animate`: one additive displacement per held
intent, then clamping of x into `[leftBound, rightBound]` and of y into
`[bottomBound, topBound]` via `Math.max(lo, Math.min(hi, v))`. -/
def movePlayer (vw : ℚ) (m : MoveState) (p : Vec2) : Vec2 :=
  ⟨max (leftBound vw) (min (rightBound vw)
      ((if m.left then p.x - speed else p.x) +
        (if m.right then speed else 0))),
   max bottomBound (min topBound
      ((if m.up then p.y + speed else p.y) -
        (if m.down then speed else 0)))⟩

/-- One frame of player-projectile motion: `bullets[i].position.y += BULLET_SPEED`. -/
def moveBullet (b : Vec2) : Vec2 := ⟨b.x, b.y + BULLET_SPEED⟩

/-- Axis-aligned overlap test between a player projectile and an adversary
(`Math.abs(b.position.x - e.position.x) < (BULLET_WIDTH + ENEMY_WIDTH) / 2 && ...`). -/
def bulletHitsEnemy (b e : Vec2) : Bool :=
  decide (|b.x - e.x| < (BULLET_WIDTH + ENEMY_WIDTH) / 2) &&
  decide (|b.y - e.y| < (BULLET_HEIGHT + ENEMY_HEIGHT) / 2)

/-- The inner adversary scan for one projectile: `for (j = enemies.length - 1;
j >= 0; j--)` with `splice(j, 1)` and `break` on the first overlap.  Scanning
from the highest index first is modelled by recursing into the tail before
testing the head; the result is the removed adversary and the remaining list. -/
def removeLastHit (b : Vec2) : List Vec2 → Option (Vec2 × List Vec2)
  | [] => none
  | e :: rest =>
    match removeLastHit b rest with
    | some (hit, rest') => some (hit, e :: rest')
    | none => if bulletHitsEnemy b e then some (e, rest) else none

/-- Result of the player-projectile pass: surviving projectiles, surviving
adversaries, explosions pushed during the pass, and the number of
`setScore((s) => s + 1)` calls. -/
structure BulletPhase where
  bullets : List Vec2
  enemies : List Vec2
  explosions : List Explosion
  kills : ℕ
deriving DecidableEq

/-- The `--- Update bullets ---` loop: each projectile (highest index first)
moves up, is dropped when `position.y > 5 + BULLET_HEIGHT`, and otherwise
scans the adversaries; on the first overlap both are removed, an explosion
with timer `0.35` is pushed at the adversary's position, and the score
updater is queued. -/
def updateBullets : List Vec2 → List Vec2 → BulletPhase
  | [], es => ⟨[], es, [], 0⟩
  | b :: rest, es =>
    if 5 + BULLET_HEIGHT < (moveBullet b).y then updateBullets rest es
    else
      match removeLastHit (moveBullet b) (updateBullets rest es).enemies with
      | some (e, es') =>
        ⟨(updateBullets rest es).bullets, es',
          (updateBullets rest es).explosions ++ [⟨e, 0.35⟩],
          (updateBullets rest es).kills + 1⟩
      | none =>
        ⟨moveBullet b :: (updateBullets rest es).bullets,
          (updateBullets rest es).enemies,
          (updateBullets rest es).explosions,
          (updateBullets rest es).kills⟩

/-- One frame of adversary-projectile motion:
`enemyBulletsRef.current[i].position.y -= ENEMY_BULLET_SPEED`. -/
def moveEnemyBullet (b : Vec2) : Vec2 := ⟨b.x, b.y - ENEMY_BULLET_SPEED⟩

/-- Out-of-bounds test for an adversary projectile
(`position.y < -5 - ENEMY_BULLET_HEIGHT`). -/
def enemyBulletOut (b : Vec2) : Bool := decide (b.y < -5 - ENEMY_BULLET_HEIGHT)

/-- Overlap test between an adversary projectile and the player. -/
def enemyBulletHitsPlayer (b p : Vec2) : Bool :=
  decide (|b.x - p.x| < (ENEMY_BULLET_WIDTH + PLAYER_WIDTH) / 2) &&
  decide (|b.y - p.y| < (ENEMY_BULLET_HEIGHT + PLAYER_HEIGHT) / 2)

/-- Result of a pass that can hit the player: surviving entities, explosions
pushed, and the number of `setLives` updater calls queued. -/
structure PlayerHitPhase where
  remaining : List Vec2
  explosions : List Explosion
  hits : ℕ
deriving DecidableEq

/-- The `--- Update enemy bullets ---` loop: each adversary projectile
(highest index first) moves down, is dropped when below the bottom margin,
and otherwise is tested against the player; on overlap it is removed, an
explosion with timer `0.5` is pushed at the player's position and one life
decrement is queued. -/
def updateEnemyBullets (p : Vec2) : List Vec2 → PlayerHitPhase
  | [] => ⟨[], [], 0⟩
  | b :: rest =>
    if enemyBulletOut (moveEnemyBullet b) then updateEnemyBullets p rest
    else if enemyBulletHitsPlayer (moveEnemyBullet b) p then
      ⟨(updateEnemyBullets p rest).remaining,
        (updateEnemyBullets p rest).explosions ++ [⟨p, 0.5⟩],
        (updateEnemyBullets p rest).hits + 1⟩
    else
      ⟨moveEnemyBullet b :: (updateEnemyBullets p rest).remaining,
        (updateEnemyBullets p rest).explosions,
        (updateEnemyBullets p rest).hits⟩

/-- One frame of adversary motion: `enemies[i].position.y -= ENEMY_SPEED`. -/
def moveEnemy (e : Vec2) : Vec2 := ⟨e.x, e.y - ENEMY_SPEED⟩

/-- Overlap test between an adversary body and the player. -/
def enemyHitsPlayer (e p : Vec2) : Bool :=
  decide (|e.x - p.x| < (ENEMY_WIDTH + PLAYER_WIDTH) / 2) &&
  decide (|e.y - p.y| < (ENEMY_HEIGHT + PLAYER_HEIGHT) / 2)

/-- Out-of-bounds test for an adversary (`position.y < -5 - ENEMY_HEIGHT`). -/
def enemyOut (e : Vec2) : Bool := decide (e.y < -5 - ENEMY_HEIGHT)

/-- The `--- Update enemies ---` loop: each adversary (highest index first)
moves down; on overlap with the player it is removed with an explosion and a
queued life decrement; otherwise it is dropped silently once below the
bottom margin. -/
def updateEnemies (p : Vec2) : List Vec2 → PlayerHitPhase
  | [] => ⟨[], [], 0⟩
  | e :: rest =>
    if enemyHitsPlayer (moveEnemy e) p then
      ⟨(updateEnemies p rest).remaining,
        (updateEnemies p rest).explosions ++ [⟨p, 0.5⟩],
        (updateEnemies p rest).hits + 1⟩
    else if enemyOut (moveEnemy e) then updateEnemies p rest
    else
      ⟨moveEnemy e :: (updateEnemies p rest).remaining,
        (updateEnemies p rest).explosions,
        (updateEnemies p rest).hits⟩

/-- The `--- Update explosions ---` loop: every timer loses `1 / 60`; entries
whose decremented timer is `<= 0` are spliced out. -/
def updateExplosions : List Explosion → List Explosion
  | [] => []
  | ex :: rest =>
    if ex.timer - FRAME_DT ≤ 0 then updateExplosions rest
    else ⟨ex.pos, ex.timer - FRAME_DT⟩ :: updateExplosions rest

/-- The round-state slice touched by a hit on the player: the `lives` React
state and the `gameOver` flag. -/
structure LifeState where
  lives : ℤ
  gameOver : Bool
deriving DecidableEq

/-- One queued `setLives((l) => { if (l <= 1) setGameOver(true); return l - 1 })`
updater. -/
def hitPlayer (s : LifeState) : LifeState :=
  ⟨s.lives - 1, if s.lives ≤ 1 then true else s.gameOver⟩

/-- Apply `n` queued life-decrement updaters in order. -/
def applyHits : ℕ → LifeState → LifeState
  | 0, s => s
  | n + 1, s => applyHits n (hitPlayer s)

/-- Complete simulation state for one frame: entity collections plus the
score/lives/game-over React state. -/
structure GameState where
  player : Vec2
  bullets : List Vec2
  enemies : List Vec2
  enemyBullets : List Vec2
  explosions : List Explosion
  score : ℕ
  lives : ℤ
  gameOver : Bool
deriving DecidableEq

/-- One frame of the `animate` body: player movement and clamping, the
player-projectile pass, the adversary-projectile pass, the adversary pass,
the explosion-timer pass, and the queued score/lives updaters applied in
call order (adversary-projectile hits before adversary-body hits). -/
def step (vw : ℚ) (m : MoveState) (g : GameState) : GameState :=
  let p := movePlayer vw m g.player
  let bp := updateBullets g.bullets g.enemies
  let ebp := updateEnemyBullets p g.enemyBullets
  let ep := updateEnemies p bp.enemies
  let ls := applyHits ep.hits (applyHits ebp.hits ⟨g.lives, g.gameOver⟩)
  { player := p
    bullets := bp.bullets
    enemies := ep.remaining
    enemyBullets := ebp.remaining
    explosions :=
      updateExplosions
        (g.explosions ++ bp.explosions ++ ebp.explosions ++ ep.explosions)
    score := g.score + bp.kills
    lives := ls.lives
    gameOver := ls.gameOver }

/-- The full list of explosion records the frame's final pass works on: the
ones carried over plus those pushed by the three collision passes, in push
order. -/
def frameExplosions (vw : ℚ) (m : MoveState) (g : GameState) : List Explosion :=
  g.explosions ++ (updateBullets g.bullets g.enemies).explosions ++
    (updateEnemyBullets (movePlayer vw m g.player) g.enemyBullets).explosions ++
    (updateEnemies (movePlayer vw m g.player)
      (updateBullets g.bullets g.enemies).enemies).explosions

/-- `shoot()`: pushes three projectiles — left wing cannon, right wing
cannon, ship nose — onto `bulletsRef.current`, positioned relative to the
player exactly as in the source arithmetic. -/
def shoot (p : Vec2) (bullets : List Vec2) : List Vec2 :=
  bullets ++
    [⟨p.x - PLAYER_WIDTH * 0.75 + -PLAYER_WIDTH * 0.4,
        p.y - PLAYER_HEIGHT * 0.1 - PLAYER_HEIGHT * 0.6 + PLAYER_HEIGHT * 0.5⟩,
      ⟨p.x + PLAYER_WIDTH * 0.75 + PLAYER_WIDTH * 0.4,
        p.y - PLAYER_HEIGHT * 0.1 - PLAYER_HEIGHT * 0.6 + PLAYER_HEIGHT * 0.5⟩,
      ⟨p.x, p.y + PLAYER_HEIGHT / 2 + BULLET_HEIGHT / 2⟩]

/-- One tick of the 2-second `enemyShootInterval`: when adversaries exist,
the randomly drawn index `r = Math.floor(Math.random() * enemies.length)`
selects one; if its y is still `< 4` one adversary projectile is pushed at
its x, just below its nose
(`y - ENEMY_HEIGHT / 2 - ENEMY_BULLET_HEIGHT / 2`). -/
def enemyShootTick (r : ℕ) (enemies ebs : List Vec2) : List Vec2 :=
  if enemies.isEmpty then ebs
  else
    match enemies[r]? with
    | some e =>
      if e.y < 4 then
        ebs ++ [⟨e.x, e.y - ENEMY_HEIGHT / 2 - ENEMY_BULLET_HEIGHT / 2⟩]
      else ebs
    | none => ebs

/-- `handleRestart` plus the effect re-run it triggers: score, lives and the
game-over flag are reset and a fresh scene is built with the player at
`(0, -4)` and `enemiesRef.current = []`, `enemyBulletsRef.current = []` and a
fresh local `explosions` array — but `bulletsRef.current` is never cleared,
so player projectiles survive the restart. -/
def restart (g : GameState) : GameState :=
  { player := ⟨0, -4⟩
    bullets := g.bullets
    enemies := []
    enemyBullets := []
    explosions := []
    score := 0
    lives := 3
    gameOver := false }

/-- A scan that returns `none` found no overlapping adversary. -/
theorem removeLastHit_none (b : Vec2) :
    ∀ {es : List Vec2}, removeLastHit b es = none →
      ∀ e ∈ es, bulletHitsEnemy b e = false := by
  intro es
  induction es with
  | nil => intro _ e he; cases he
  | cons a rest ih =>
    intro h e he
    rw [removeLastHit] at h
    cases hr : removeLastHit b rest with
    | some pr => rw [hr] at h; cases h
    | none =>
      rw [hr] at h
      by_cases hb : bulletHitsEnemy b a
      · rw [if_pos hb] at h; cases h
      · rw [List.mem_cons] at he
        rcases he with rfl | he
        · exact Bool.eq_false_iff.mpr hb
        · exact ih hr e he

/-- A successful scan returns an adversary of the list that overlaps the
projectile, and the remainder is one element shorter. -/
theorem removeLastHit_some (b : Vec2) :
    ∀ {es es' : List Vec2} {e : Vec2}, removeLastHit b es = some (e, es') →
      e ∈ es ∧ bulletHitsEnemy b e = true ∧ es'.length + 1 = es.length := by
  intro es
  induction es with
  | nil => intro es' e h; cases h
  | cons a rest ih =>
    intro es' e h
    rw [removeLastHit] at h
    split at h
    next hit rest' heq =>
      simp only [Option.some.injEq, Prod.mk.injEq] at h
      obtain ⟨he, hes⟩ := h
      subst he; subst hes
      obtain ⟨hmem, hhit, hlen⟩ := ih heq
      exact ⟨List.mem_cons_of_mem a hmem, hhit, by simpa using hlen⟩
    next heq =>
      split at h
      next hb =>
        simp only [Option.some.injEq, Prod.mk.injEq] at h
        obtain ⟨he, hes⟩ := h
        subst he; subst hes
        exact ⟨List.mem_cons_self _ _, hb, rfl⟩
      next hb => cases h

/-- When some adversary overlaps, the scan succeeds. -/
theorem removeLastHit_isSome (b : Vec2) :
    ∀ {es : List Vec2}, (∃ e ∈ es, bulletHitsEnemy b e = true) →
      ∃ e es', removeLastHit b es = some (e, es') := by
  intro es h
  cases hr : removeLastHit b es with
  | some pr => exact ⟨pr.1, pr.2, rfl⟩
  | none =>
    obtain ⟨e, he, hhit⟩ := h
    have := removeLastHit_none b hr e he
    rw [this] at hhit
    cases hhit

/-- Every score increment of the projectile pass corresponds to exactly one
adversary removed from the collection. -/
theorem updateBullets_kills_length (bs es : List Vec2) :
    (updateBullets bs es).kills + (updateBullets bs es).enemies.length =
      es.length := by
  induction bs with
  | nil => simp [updateBullets]
  | cons b rest ih =>
    rw [updateBullets]
    split
    · exact ih
    · split
      next e es' heq =>
        obtain ⟨-, -, hlen⟩ := removeLastHit_some (moveBullet b) heq
        dsimp only
        omega
      next heq =>
        dsimp only
        exact ih

/-- Each projectile scores at most once per frame. -/
theorem updateBullets_kills_le (bs es : List Vec2) :
    (updateBullets bs es).kills ≤ bs.length := by
  induction bs with
  | nil => simp [updateBullets]
  | cons b rest ih =>
    rw [updateBullets]
    split
    · exact Nat.le_succ_of_le ih
    · split
      next e es' heq =>
        dsimp only
        simp only [List.length_cons]
        omega
      next heq =>
        dsimp only
        simp only [List.length_cons]
        omega

/-- With no adversaries present the pass never removes one. -/
theorem updateBullets_enemies_nil (bs : List Vec2) :
    (updateBullets bs []).enemies = [] := by
  have h := updateBullets_kills_length bs []
  simp only [List.length_nil, Nat.add_eq_zero] at h
  exact List.length_eq_zero.mp h.2

/-- With no adversaries the projectile pass is exactly: advance every
projectile by the fixed upward speed and drop those beyond the top margin. -/
theorem updateBullets_no_enemies (bs : List Vec2) :
    (updateBullets bs []).bullets =
      (bs.map moveBullet).filter (fun b => !decide (5 + BULLET_HEIGHT < b.y)) := by
  induction bs with
  | nil => rfl
  | cons b rest ih =>
    rw [updateBullets]
    have hnone : removeLastHit (moveBullet b) (updateBullets rest []).enemies = none := by
      rw [updateBullets_enemies_nil]; rfl
    by_cases hb : 5 + BULLET_HEIGHT < (moveBullet b).y
    · simp [hb, ih, List.filter_cons]
    · simp [hb, hnone, ih, List.filter_cons]

/-- A single in-range projectile whose scan succeeds: the projectile is
consumed, the matched adversary removed, one explosion with timer `0.35`
spawned at its position, and the score updater queued once. -/
theorem updateBullets_single (b : Vec2) (es es' : List Vec2) (e : Vec2)
    (hin : ¬ 5 + BULLET_HEIGHT < (moveBullet b).y)
    (heq : removeLastHit (moveBullet b) es = some (e, es')) :
    updateBullets [b] es = ⟨[], es', [⟨e, 0.35⟩], 1⟩ := by
  rw [updateBullets, if_neg hin]
  have h0 : updateBullets [] es = ⟨[], es, [], 0⟩ := rfl
  rw [h0]
  dsimp only
  rw [heq]
  rfl

/-- The adversary-projectile pass queues one life decrement per projectile
that, after moving, is inside the bottom margin and overlaps the player —
no coalescing of simultaneous hits. -/
theorem updateEnemyBullets_hits (p : Vec2) (ebs : List Vec2) :
    (updateEnemyBullets p ebs).hits =
      ((ebs.map moveEnemyBullet).filter
        (fun b => !enemyBulletOut b && enemyBulletHitsPlayer b p)).length := by
  induction ebs with
  | nil => rfl
  | cons b rest ih =>
    rw [updateEnemyBullets]
    by_cases h1 : enemyBulletOut (moveEnemyBullet b)
    · simp [h1, ih, List.filter_cons]
    · by_cases h2 : enemyBulletHitsPlayer (moveEnemyBullet b) p
      · simp [h1, h2, ih, List.filter_cons]
      · simp [h1, h2, ih, List.filter_cons]

/-- Each queued life updater subtracts exactly one life; no clamping. -/
theorem applyHits_lives (n : ℕ) :
    ∀ s : LifeState, (applyHits n s).lives = s.lives - n := by
  induction n with
  | zero => intro s; simp [applyHits]
  | succ k ih =>
    intro s
    rw [applyHits, ih]
    simp only [hitPlayer]
    push_cast
    ring

/-- The game-over flag is raised by a batch of `n` life updaters exactly when
some updater in the batch runs with at most one life left. -/
theorem applyHits_gameOver (n : ℕ) :
    ∀ s : LifeState, (applyHits n s).gameOver = true ↔
      s.gameOver = true ∨ (1 ≤ n ∧ s.lives ≤ (n : ℤ)) := by
  induction n with
  | zero => intro s; simp [applyHits]
  | succ k ih =>
    intro s
    rw [applyHits, ih]
    simp only [hitPlayer]
    by_cases hl : s.lives ≤ 1
    · simp only [if_pos hl]
      constructor
      · intro _; right; refine ⟨Nat.le_add_left 1 k, ?_⟩; push_cast; omega
      · intro _; exact Or.inl trivial
    · simp only [if_neg hl]
      constructor
      · rintro (hb | ⟨hk, hlek⟩)
        · exact Or.inl hb
        · right; refine ⟨Nat.le_add_left 1 k, ?_⟩; push_cast at hlek ⊢; omega
      · rintro (hb | ⟨hk, hlek⟩)
        · exact Or.inl hb
        · right
          have h1k : 1 ≤ k := by
            rcases Nat.eq_zero_or_pos k with rfl | hpos
            · exfalso; push_cast at hlek; omega
            · exact hpos
          refine ⟨h1k, ?_⟩
          push_cast at hlek ⊢
          omega

/-- The explosion pass is exactly: decrement every timer by the fixed frame
tick and drop the records whose decremented timer is at or below zero,
preserving order. -/
theorem updateExplosions_eq (l : List Explosion) :
    updateExplosions l =
      (l.map (fun ex => ⟨ex.pos, ex.timer - FRAME_DT⟩)).filter
        (fun ex => !decide (ex.timer ≤ 0)) := by
  induction l with
  | nil => rfl
  | cons ex rest ih =>
    rw [updateExplosions]
    by_cases h : ex.timer - FRAME_DT ≤ 0
    · simp [h, ih, List.filter_cons]
    · simp [h, ih, List.filter_cons]

/-- The frame's final life count: the starting value minus one per queued
hit from the two player-collision passes. -/
theorem step_lives_eq (vw : ℚ) (m : MoveState) (g : GameState) :
    (step vw m g).lives =
      g.lives -
        ((updateEnemyBullets (movePlayer vw m g.player) g.enemyBullets).hits : ℤ) -
        ((updateEnemies (movePlayer vw m g.player)
            (updateBullets g.bullets g.enemies).enemies).hits : ℤ) := by
  have h0 : (step vw m g).lives =
      (applyHits
        (updateEnemies (movePlayer vw m g.player)
          (updateBullets g.bullets g.enemies).enemies).hits
        (applyHits
          (updateEnemyBullets (movePlayer vw m g.player) g.enemyBullets).hits
          ⟨g.lives, g.gameOver⟩)).lives := rfl
  rw [h0, applyHits_lives, applyHits_lives]

/-- The frame's final game-over flag, in terms of the hit counts of the two
player-collision passes. -/
theorem step_gameOver_iff (vw : ℚ) (m : MoveState) (g : GameState) :
    (step vw m g).gameOver = true ↔
      g.gameOver = true ∨
        (1 ≤ (updateEnemyBullets (movePlayer vw m g.player) g.enemyBullets).hits ∧
          g.lives ≤
            ((updateEnemyBullets (movePlayer vw m g.player) g.enemyBullets).hits : ℤ)) ∨
        (1 ≤ (updateEnemies (movePlayer vw m g.player)
              (updateBullets g.bullets g.enemies).enemies).hits ∧
          g.lives -
              ((updateEnemyBullets (movePlayer vw m g.player) g.enemyBullets).hits : ℤ) ≤
            ((updateEnemies (movePlayer vw m g.player)
                (updateBullets g.bullets g.enemies).enemies).hits : ℤ)) := by
  have h0 : (step vw m g).gameOver =
      (applyHits
        (updateEnemies (movePlayer vw m g.player)
          (updateBullets g.bullets g.enemies).enemies).hits
        (applyHits
          (updateEnemyBullets (movePlayer vw m g.player) g.enemyBullets).hits
          ⟨g.lives, g.gameOver⟩)).gameOver := rfl
  rw [h0, applyHits_gameOver, applyHits_gameOver, applyHits_lives]
  dsimp only
  tauto

/-- C1: in every simulation frame `livesRemaining` is monotonically
non-increasing, and the frame's game-over flag is raised exactly when this
frame's decrements take the life count to 0 or below — never in a later
frame. -/
theorem step_lives_monotone_gameOver_exact (vw : ℚ) (m : MoveState)
    (g : GameState) :
    (step vw m g).lives ≤ g.lives ∧
      ((step vw m g).gameOver = true ↔
        g.gameOver = true ∨
          ((step vw m g).lives < g.lives ∧ (step vw m g).lives ≤ 0)) := by
  have hl := step_lives_eq vw m g
  have hg := step_gameOver_iff vw m g
  obtain ⟨n1, hn1⟩ :
      ∃ n, (updateEnemyBullets (movePlayer vw m g.player) g.enemyBullets).hits = n :=
    ⟨_, rfl⟩
  obtain ⟨n2, hn2⟩ :
      ∃ n, (updateEnemies (movePlayer vw m g.player)
          (updateBullets g.bullets g.enemies).enemies).hits = n :=
    ⟨_, rfl⟩
  rw [hn1, hn2] at hg hl
  refine ⟨by rw [hl]; omega, ?_⟩
  rw [hg, hl]
  by_cases hb : g.gameOver = true
  · simp [hb]
  · simp only [hb, Bool.false_eq_true, false_iff, false_or]
    omega

/-- C2: in every simulation frame the score is non-decreasing and increases
by exactly the number of adversaries destroyed by a player projectile in
that frame — one point per destroyed adversary, nothing for adversaries
removed in other ways. -/
theorem step_score_exact (vw : ℚ) (m : MoveState) (g : GameState) :
    g.score ≤ (step vw m g).score ∧
      (step vw m g).score = g.score + (updateBullets g.bullets g.enemies).kills ∧
      (updateBullets g.bullets g.enemies).kills +
          (updateBullets g.bullets g.enemies).enemies.length =
        g.enemies.length := by
  exact ⟨Nat.le_add_right g.score (updateBullets g.bullets g.enemies).kills,
    rfl, updateBullets_kills_length g.bullets g.enemies⟩

/-- C5: after the movement/clamping phase the player's position lies inside
the configured horizontal and vertical bounds, regardless of which movement
intents are held. -/
theorem player_position_clamped (vw : ℚ) (m : MoveState) (p : Vec2)
    (hvw : PLAYER_WIDTH ≤ vw) :
    leftBound vw ≤ (movePlayer vw m p).x ∧
      (movePlayer vw m p).x ≤ rightBound vw ∧
      bottomBound ≤ (movePlayer vw m p).y ∧
      (movePlayer vw m p).y ≤ topBound := by
  have hlr : leftBound vw ≤ rightBound vw := by
    unfold leftBound rightBound
    unfold PLAYER_WIDTH at hvw ⊢
    norm_num at hvw ⊢
    linarith
  have hbt : bottomBound ≤ topBound := by
    norm_num [bottomBound, topBound, viewHeight, PLAYER_HEIGHT]
  refine ⟨le_max_left _ _, ?_, le_max_left _ _, ?_⟩
  · exact max_le hlr (min_le_left _ _)
  · exact max_le hbt (min_le_left _ _)

/-- Witness for C5: with view width 14, all four intents held and the player
far outside the area, the clamped position is inside all bounds. -/
theorem player_position_clamped_witness :
    PLAYER_WIDTH ≤ (14 : ℚ) ∧
      (leftBound 14 ≤ (movePlayer 14 ⟨true, true, true, true⟩ ⟨100, -100⟩).x ∧
        (movePlayer 14 ⟨true, true, true, true⟩ ⟨100, -100⟩).x ≤ rightBound 14 ∧
        bottomBound ≤ (movePlayer 14 ⟨true, true, true, true⟩ ⟨100, -100⟩).y ∧
        (movePlayer 14 ⟨true, true, true, true⟩ ⟨100, -100⟩).y ≤ topBound) :=
  ⟨by norm_num [PLAYER_WIDTH],
    player_position_clamped 14 ⟨true, true, true, true⟩ ⟨100, -100⟩
      (by norm_num [PLAYER_WIDTH])⟩

/-- C3 (amended): a player projectile whose advanced position is still
within the top prune margin and overlaps an adversary under the
axis-aligned predicate is resolved in the same pass: the first match of the
scan removes both entities, spawns one effect marker at the adversary's
position with countdown 0.35 s, increments the score by exactly 1, and the
scan stops — no projectile ever destroys more than one adversary per
frame. -/
theorem projectile_destroys_first_match (b : Vec2) (es : List Vec2)
    (hin : ¬ 5 + BULLET_HEIGHT < (moveBullet b).y)
    (hhit : ∃ e ∈ es, bulletHitsEnemy (moveBullet b) e = true) :
    (∃ e es', removeLastHit (moveBullet b) es = some (e, es') ∧
        e ∈ es ∧ bulletHitsEnemy (moveBullet b) e = true ∧
        es'.length + 1 = es.length ∧
        updateBullets [b] es = ⟨[], es', [⟨e, 0.35⟩], 1⟩ ∧
        (∀ (vw : ℚ) (m : MoveState) (g : GameState),
          g.bullets = [b] → g.enemies = es →
          (step vw m g).score = g.score + 1 ∧ (step vw m g).bullets = [])) ∧
      ∀ bs es0 : List Vec2, (updateBullets bs es0).kills ≤ bs.length := by
  refine ⟨?_, updateBullets_kills_le⟩
  obtain ⟨e, es', heq⟩ := removeLastHit_isSome (moveBullet b) hhit
  obtain ⟨hmem, hbe, hlen⟩ := removeLastHit_some (moveBullet b) heq
  have hub := updateBullets_single b es es' e hin heq
  refine ⟨e, es', heq, hmem, hbe, hlen, hub, ?_⟩
  intro vw m g hgb hge
  constructor
  · have h0 : (step vw m g).score =
        g.score + (updateBullets g.bullets g.enemies).kills := rfl
    rw [h0, hgb, hge, hub]
  · have h0 : (step vw m g).bullets =
        (updateBullets g.bullets g.enemies).bullets := rfl
    rw [h0, hgb, hge, hub]

/-- Counterexample to C3 as stated: a projectile at (0, 5.7) advances to
(0, 5.9), beyond the top prune margin `5 + BULLET_HEIGHT = 5.8`, while
overlapping a just-spawned adversary at (0, 5.45) under the axis-aligned
predicate; the pass removes only the projectile — the adversary survives,
no marker spawns and no point is scored. -/
theorem projectile_prune_preempts_collision :
    bulletHitsEnemy (moveBullet ⟨0, 5.7⟩) ⟨0, 5.45⟩ = true ∧
      5 + BULLET_HEIGHT < (moveBullet ⟨0, 5.7⟩).y ∧
      updateBullets [⟨0, 5.7⟩] [⟨0, 5.45⟩] = ⟨[], [⟨0, 5.45⟩], [], 0⟩ := by
  refine ⟨?_, ?_, ?_⟩
  · norm_num [bulletHitsEnemy, moveBullet, BULLET_SPEED, BULLET_WIDTH,
      BULLET_HEIGHT, ENEMY_WIDTH, ENEMY_HEIGHT, abs_lt]
  · norm_num [moveBullet, BULLET_SPEED, BULLET_HEIGHT]
  · rw [updateBullets]
    rw [if_pos (by norm_num [moveBullet, BULLET_SPEED, BULLET_HEIGHT])]
    rfl

/-- Witness for C3, the spec's own scenario: an adversary at (0, 5) and a
player projectile at (0, 4.9) overlap after the projectile moves; the pass
removes both, scores one point and spawns one 0.35 s marker. -/
theorem projectile_destroys_first_match_witness :
    (¬ 5 + BULLET_HEIGHT < (moveBullet ⟨0, 4.9⟩).y) ∧
      ((∃ e es', removeLastHit (moveBullet ⟨0, 4.9⟩) [⟨0, 5⟩] = some (e, es') ∧
          e ∈ [(⟨0, 5⟩ : Vec2)] ∧
          bulletHitsEnemy (moveBullet ⟨0, 4.9⟩) e = true ∧
          es'.length + 1 = [(⟨0, 5⟩ : Vec2)].length ∧
          updateBullets [⟨0, 4.9⟩] [⟨0, 5⟩] = ⟨[], es', [⟨e, 0.35⟩], 1⟩ ∧
          (∀ (vw : ℚ) (m : MoveState) (g : GameState),
            g.bullets = [⟨0, 4.9⟩] → g.enemies = [⟨0, 5⟩] →
            (step vw m g).score = g.score + 1 ∧ (step vw m g).bullets = [])) ∧
        ∀ bs es0 : List Vec2, (updateBullets bs es0).kills ≤ bs.length) := by
  have hin : ¬ 5 + BULLET_HEIGHT < (moveBullet ⟨0, 4.9⟩).y := by
    norm_num [moveBullet, BULLET_HEIGHT, BULLET_SPEED]
  have hhit : ∃ e ∈ [(⟨0, 5⟩ : Vec2)],
      bulletHitsEnemy (moveBullet ⟨0, 4.9⟩) e = true := by
    refine ⟨⟨0, 5⟩, List.mem_singleton_self _, ?_⟩
    norm_num [bulletHitsEnemy, moveBullet, BULLET_SPEED, BULLET_WIDTH,
      BULLET_HEIGHT, ENEMY_WIDTH, ENEMY_HEIGHT, abs_lt]
  exact ⟨hin, projectile_destroys_first_match ⟨0, 4.9⟩ [⟨0, 5⟩] hin hhit⟩

/-- C4: simultaneous collisions against the player in one frame are all
resolved independently, with no coalescing: two adversary projectiles both
overlapping the player with three lives left cost exactly two lives and the
round keeps playing; in general the pass queues one decrement per
in-bounds overlapping projectile. -/
theorem simultaneous_hits_not_coalesced (vw : ℚ) (m : MoveState)
    (g : GameState) (b1 b2 : Vec2)
    (hebs : g.enemyBullets = [b1, b2]) (hen : g.enemies = [])
    (hlives : g.lives = 3) (hgo : g.gameOver = false)
    (h1o : enemyBulletOut (moveEnemyBullet b1) = false)
    (h1h : enemyBulletHitsPlayer (moveEnemyBullet b1)
      (movePlayer vw m g.player) = true)
    (h2o : enemyBulletOut (moveEnemyBullet b2) = false)
    (h2h : enemyBulletHitsPlayer (moveEnemyBullet b2)
      (movePlayer vw m g.player) = true) :
    (step vw m g).lives = 1 ∧ (step vw m g).gameOver = false ∧
      ∀ (p : Vec2) (ebs : List Vec2),
        (updateEnemyBullets p ebs).hits =
          ((ebs.map moveEnemyBullet).filter
            (fun b => !enemyBulletOut b && enemyBulletHitsPlayer b p)).length := by
  have hh1 : (updateEnemyBullets (movePlayer vw m g.player) g.enemyBullets).hits = 2 := by
    rw [hebs]
    simp [updateEnemyBullets, h1o, h1h, h2o, h2h]
  have hh2 : (updateEnemies (movePlayer vw m g.player)
      (updateBullets g.bullets g.enemies).enemies).hits = 0 := by
    rw [hen, updateBullets_enemies_nil]
    rfl
  refine ⟨?_, ?_, updateEnemyBullets_hits⟩
  · rw [step_lives_eq, hh1, hh2, hlives]
    norm_num
  · have hnot : ¬ (step vw m g).gameOver = true := by
      rw [step_gameOver_iff, hh1, hh2, hlives, hgo]
      norm_num
    exact Bool.eq_false_iff.mpr hnot

/-- Witness for C4: two concrete adversary projectiles over the player at
(0, -4), three lives — after the frame, one life remains and the round is
still playing. -/
theorem simultaneous_hits_not_coalesced_witness :
    (step 10 ⟨false, false, false, false⟩
        ⟨⟨0, -4⟩, [], [], [⟨0, -3.3⟩, ⟨0.1, -3.3⟩], [], 0, 3, false⟩).lives = 1 ∧
      (step 10 ⟨false, false, false, false⟩
        ⟨⟨0, -4⟩, [], [], [⟨0, -3.3⟩, ⟨0.1, -3.3⟩], [], 0, 3, false⟩).gameOver = false ∧
      ∀ (p : Vec2) (ebs : List Vec2),
        (updateEnemyBullets p ebs).hits =
          ((ebs.map moveEnemyBullet).filter
            (fun b => !enemyBulletOut b && enemyBulletHitsPlayer b p)).length := by
  have hmv : movePlayer 10 ⟨false, false, false, false⟩ ⟨0, -4⟩ = ⟨0, -4⟩ := by
    norm_num [movePlayer, leftBound, rightBound, topBound, bottomBound,
      viewHeight, speed, PLAYER_WIDTH, PLAYER_HEIGHT, min_def, max_def]
  refine simultaneous_hits_not_coalesced 10 ⟨false, false, false, false⟩
    ⟨⟨0, -4⟩, [], [], [⟨0, -3.3⟩, ⟨0.1, -3.3⟩], [], 0, 3, false⟩
    ⟨0, -3.3⟩ ⟨0.1, -3.3⟩ rfl rfl rfl rfl ?_ ?_ ?_ ?_
  · norm_num [enemyBulletOut, moveEnemyBullet, ENEMY_BULLET_SPEED, ENEMY_BULLET_HEIGHT]
  · rw [show (⟨⟨0, -4⟩, [], [], [⟨0, -3.3⟩, ⟨0.1, -3.3⟩], [], 0, 3, false⟩ :
        GameState).player = ⟨0, -4⟩ from rfl, hmv]
    norm_num [enemyBulletHitsPlayer, moveEnemyBullet, ENEMY_BULLET_SPEED,
      ENEMY_BULLET_WIDTH, ENEMY_BULLET_HEIGHT, PLAYER_WIDTH, PLAYER_HEIGHT, abs_lt]
  · norm_num [enemyBulletOut, moveEnemyBullet, ENEMY_BULLET_SPEED, ENEMY_BULLET_HEIGHT]
  · rw [show (⟨⟨0, -4⟩, [], [], [⟨0, -3.3⟩, ⟨0.1, -3.3⟩], [], 0, 3, false⟩ :
        GameState).player = ⟨0, -4⟩ from rfl, hmv]
    norm_num [enemyBulletHitsPlayer, moveEnemyBullet, ENEMY_BULLET_SPEED,
      ENEMY_BULLET_WIDTH, ENEMY_BULLET_HEIGHT, PLAYER_WIDTH, PLAYER_HEIGHT, abs_lt]

/-- C6: each fire trigger appends exactly three player projectiles in one
invocation — left cannon, right cannon and nose offsets from the player —
and the projectile pass advances every one of them by the same fixed
upward speed. -/
theorem shoot_spawns_three (p : Vec2) (bs : List Vec2) :
    shoot p bs =
      bs ++ [⟨p.x - 23 / 40, p.y - 1 / 5⟩, ⟨p.x + 23 / 40, p.y - 1 / 5⟩,
        ⟨p.x, p.y + 9 / 10⟩] ∧
      (shoot p bs).length = bs.length + 3 ∧
      ∀ bs' : List Vec2,
        (updateBullets bs' []).bullets =
          (bs'.map moveBullet).filter (fun b => !decide (5 + BULLET_HEIGHT < b.y)) := by
  refine ⟨?_, by simp [shoot], updateBullets_no_enemies⟩
  rw [shoot]
  norm_num [PLAYER_WIDTH, PLAYER_HEIGHT, BULLET_HEIGHT, Vec2.mk.injEq]
  refine ⟨⟨by ring, by ring⟩, ⟨by ring, by ring⟩, by ring⟩

/-- C7: each frame, every effect marker's countdown is decremented by the
frame's elapsed time (the fixed 1/60 s tick) and every marker whose
decremented countdown is at or below zero is removed in that same frame. -/
theorem effect_marker_countdown (vw : ℚ) (m : MoveState) (g : GameState) :
    (step vw m g).explosions =
      ((frameExplosions vw m g).map
          (fun ex => ⟨ex.pos, ex.timer - FRAME_DT⟩)).filter
        (fun ex => !decide (ex.timer ≤ 0)) := by
  have h0 : (step vw m g).explosions =
      updateExplosions (frameExplosions vw m g) := rfl
  rw [h0, updateExplosions_eq]

/-- Counterexample to C8 as stated: restarting from a game-over state that
still holds a player projectile in flight does not yield empty projectile
collections — `bulletsRef.current` is never cleared by the restart path. -/
theorem restart_keeps_player_projectiles :
    (⟨⟨0, -4⟩, [⟨0, 0⟩], [], [], [], 5, 0, true⟩ : GameState).gameOver = true ∧
      (restart ⟨⟨0, -4⟩, [⟨0, 0⟩], [], [], [], 5, 0, true⟩).bullets ≠ [] := by
  exact ⟨rfl, by simp [restart]⟩

/-- C8 (amended): restarting from GameOver resets the score to 0, lives
to 3, game-over flag off, empties the adversary, adversary-projectile and
effect-marker collections and places a fresh player at (0, -4); the
player-projectile collection is carried over unchanged. -/
theorem restart_resets_round (g : GameState) (_h : g.gameOver = true) :
    (restart g).score = 0 ∧ (restart g).lives = 3 ∧
      (restart g).enemies = [] ∧ (restart g).enemyBullets = [] ∧
      (restart g).explosions = [] ∧ (restart g).gameOver = false ∧
      (restart g).player = ⟨0, -4⟩ ∧ (restart g).bullets = g.bullets :=
  ⟨rfl, rfl, rfl, rfl, rfl, rfl, rfl, rfl⟩

/-- Witness for C8 (amended) at a concrete game-over state. -/
theorem restart_resets_round_witness :
    (⟨⟨2, 3⟩, [], [⟨1, 1⟩], [], [], 7, 0, true⟩ : GameState).gameOver = true ∧
      ((restart ⟨⟨2, 3⟩, [], [⟨1, 1⟩], [], [], 7, 0, true⟩).score = 0 ∧
        (restart ⟨⟨2, 3⟩, [], [⟨1, 1⟩], [], [], 7, 0, true⟩).lives = 3 ∧
        (restart ⟨⟨2, 3⟩, [], [⟨1, 1⟩], [], [], 7, 0, true⟩).enemies = [] ∧
        (restart ⟨⟨2, 3⟩, [], [⟨1, 1⟩], [], [], 7, 0, true⟩).enemyBullets = [] ∧
        (restart ⟨⟨2, 3⟩, [], [⟨1, 1⟩], [], [], 7, 0, true⟩).explosions = [] ∧
        (restart ⟨⟨2, 3⟩, [], [⟨1, 1⟩], [], [], 7, 0, true⟩).gameOver = false ∧
        (restart ⟨⟨2, 3⟩, [], [⟨1, 1⟩], [], [], 7, 0, true⟩).player = ⟨0, -4⟩ ∧
        (restart ⟨⟨2, 3⟩, [], [⟨1, 1⟩], [], [], 7, 0, true⟩).bullets =
          (⟨⟨2, 3⟩, [], [⟨1, 1⟩], [], [], 7, 0, true⟩ : GameState).bullets) :=
  ⟨rfl, restart_resets_round ⟨⟨2, 3⟩, [], [⟨1, 1⟩], [], [], 7, 0, true⟩ rfl⟩

/-- Counterexample to C9 as stated: the adversary projectile is not spawned
at the selected adversary's position — its y is offset below the adversary
by half the adversary height plus half the projectile height. -/
theorem adversary_fire_offset_cex :
    enemyShootTick 0 [⟨0, 0⟩] [] = [⟨0, -(3 / 4)⟩] ∧
      (⟨0, -(3 / 4)⟩ : Vec2) ≠ (⟨0, 0⟩ : Vec2) := by
  constructor
  · norm_num [enemyShootTick, ENEMY_HEIGHT, ENEMY_BULLET_HEIGHT]
  · simp only [ne_eq, Vec2.mk.injEq, not_and]
    intro _
    norm_num

/-- C9 (amended): on a fire tick with at least one adversary present, the
adversary drawn by the random index, when its y is below the threshold 4,
spawns exactly one adversary projectile sharing its x, with y offset below
it by `ENEMY_HEIGHT / 2 + ENEMY_BULLET_HEIGHT / 2`; at or above the
threshold nothing is spawned. -/
theorem adversary_fire_tick (r : ℕ) (enemies ebs : List Vec2) (e : Vec2)
    (hne : enemies ≠ []) (hr : enemies[r]? = some e) :
    (e.y < 4 →
      enemyShootTick r enemies ebs =
        ebs ++ [⟨e.x, e.y - ENEMY_HEIGHT / 2 - ENEMY_BULLET_HEIGHT / 2⟩] ∧
        (enemyShootTick r enemies ebs).length = ebs.length + 1) ∧
      (¬ e.y < 4 → enemyShootTick r enemies ebs = ebs) := by
  have hie : enemies.isEmpty = false := by
    cases enemies with
    | nil => exact absurd rfl hne
    | cons a rest => rfl
  constructor
  · intro hy
    have hres : enemyShootTick r enemies ebs =
        ebs ++ [⟨e.x, e.y - ENEMY_HEIGHT / 2 - ENEMY_BULLET_HEIGHT / 2⟩] := by
      rw [enemyShootTick]
      simp [hie, hr, hy]
    exact ⟨hres, by rw [hres]; simp⟩
  · intro hy
    rw [enemyShootTick]
    simp [hie, hr, hy]

/-- Witness for C9 (amended) with one adversary at (1, 2) drawn by index 0. -/
theorem adversary_fire_tick_witness :
    ((1 : ℚ) < 4 ∨ True) ∧
      (((⟨1, 2⟩ : Vec2).y < 4 →
        enemyShootTick 0 [⟨1, 2⟩] [] =
          [] ++ [⟨(⟨1, 2⟩ : Vec2).x,
            (⟨1, 2⟩ : Vec2).y - ENEMY_HEIGHT / 2 - ENEMY_BULLET_HEIGHT / 2⟩] ∧
          (enemyShootTick 0 [⟨1, 2⟩] []).length = ([] : List Vec2).length + 1) ∧
        (¬ (⟨1, 2⟩ : Vec2).y < 4 → enemyShootTick 0 [⟨1, 2⟩] [] = [])) :=
  ⟨Or.inr trivial,
    adversary_fire_tick 0 [⟨1, 2⟩] [] ⟨1, 2⟩ (by simp) rfl⟩

/-- C10: the stored life count is never clamped at zero — every hit on the
player subtracts exactly one life even at zero or below; a frame landing
two hits with one life left ends at -1 lives, and any hit taken with at
most one life raises the game-over flag. -/
theorem lives_never_clamped (vw : ℚ) (m : MoveState)
    (g : GameState) (b1 b2 : Vec2)
    (hebs : g.enemyBullets = [b1, b2]) (hen : g.enemies = [])
    (hlives : g.lives = 1) (hgo : g.gameOver = false)
    (h1o : enemyBulletOut (moveEnemyBullet b1) = false)
    (h1h : enemyBulletHitsPlayer (moveEnemyBullet b1)
      (movePlayer vw m g.player) = true)
    (h2o : enemyBulletOut (moveEnemyBullet b2) = false)
    (h2h : enemyBulletHitsPlayer (moveEnemyBullet b2)
      (movePlayer vw m g.player) = true) :
    (step vw m g).lives = -1 ∧ (step vw m g).gameOver = true ∧
      (∀ (n : ℕ) (s : LifeState), (applyHits n s).lives = s.lives - n) ∧
      ∀ s : LifeState, (hitPlayer s).lives = s.lives - 1 ∧
        ((hitPlayer s).gameOver = true ↔ s.gameOver = true ∨ s.lives ≤ 1) := by
  have hh1 : (updateEnemyBullets (movePlayer vw m g.player) g.enemyBullets).hits = 2 := by
    rw [hebs]
    simp [updateEnemyBullets, h1o, h1h, h2o, h2h]
  have hh2 : (updateEnemies (movePlayer vw m g.player)
      (updateBullets g.bullets g.enemies).enemies).hits = 0 := by
    rw [hen, updateBullets_enemies_nil]
    rfl
  refine ⟨?_, ?_, applyHits_lives, ?_⟩
  · rw [step_lives_eq, hh1, hh2, hlives]
    norm_num
  · rw [step_gameOver_iff, hh1, hh2, hlives, hgo]
    norm_num
  · intro s
    refine ⟨rfl, ?_⟩
    by_cases hl : s.lives ≤ 1
    · simp [hitPlayer, hl]
    · simp [hitPlayer, hl]

/-- Witness for C10: two concrete adversary projectiles over the player at
(0, -4) with one life left — the frame ends at -1 lives and game over. -/
theorem lives_never_clamped_witness :
    (step 10 ⟨false, false, false, false⟩
        ⟨⟨0, -4⟩, [], [], [⟨-0.2, -3.25⟩, ⟨0.2, -3.25⟩], [], 4, 1, false⟩).lives = -1 ∧
      (step 10 ⟨false, false, false, false⟩
        ⟨⟨0, -4⟩, [], [], [⟨-0.2, -3.25⟩, ⟨0.2, -3.25⟩], [], 4, 1, false⟩).gameOver = true ∧
      (∀ (n : ℕ) (s : LifeState), (applyHits n s).lives = s.lives - n) ∧
      ∀ s : LifeState, (hitPlayer s).lives = s.lives - 1 ∧
        ((hitPlayer s).gameOver = true ↔ s.gameOver = true ∨ s.lives ≤ 1) := by
  have hmv : movePlayer 10 ⟨false, false, false, false⟩ ⟨0, -4⟩ = ⟨0, -4⟩ := by
    norm_num [movePlayer, leftBound, rightBound, topBound, bottomBound,
      viewHeight, speed, PLAYER_WIDTH, PLAYER_HEIGHT, min_def, max_def]
  refine lives_never_clamped 10 ⟨false, false, false, false⟩
    ⟨⟨0, -4⟩, [], [], [⟨-0.2, -3.25⟩, ⟨0.2, -3.25⟩], [], 4, 1, false⟩
    ⟨-0.2, -3.25⟩ ⟨0.2, -3.25⟩ rfl rfl rfl rfl ?_ ?_ ?_ ?_
  · norm_num [enemyBulletOut, moveEnemyBullet, ENEMY_BULLET_SPEED, ENEMY_BULLET_HEIGHT]
  · rw [show (⟨⟨0, -4⟩, [], [], [⟨-0.2, -3.25⟩, ⟨0.2, -3.25⟩], [], 4, 1, false⟩ :
        GameState).player = ⟨0, -4⟩ from rfl, hmv]
    norm_num [enemyBulletHitsPlayer, moveEnemyBullet, ENEMY_BULLET_SPEED,
      ENEMY_BULLET_WIDTH, ENEMY_BULLET_HEIGHT, PLAYER_WIDTH, PLAYER_HEIGHT, abs_lt]
  · norm_num [enemyBulletOut, moveEnemyBullet, ENEMY_BULLET_SPEED, ENEMY_BULLET_HEIGHT]
  · rw [show (⟨⟨0, -4⟩, [], [], [⟨-0.2, -3.25⟩, ⟨0.2, -3.25⟩], [], 4, 1, false⟩ :
        GameState).player = ⟨0, -4⟩ from rfl, hmv]
    norm_num [enemyBulletHitsPlayer, moveEnemyBullet, ENEMY_BULLET_SPEED,
      ENEMY_BULLET_WIDTH, ENEMY_BULLET_HEIGHT, PLAYER_WIDTH, PLAYER_HEIGHT, abs_lt]

end SpaceShooter
